import Mathlib

/-!
Verification of the eetc-utils backtesting core
(`src/eetc_utils/strategy/backtesting/{broker_sim,engine,metrics}.py`)
against its natural-language specification.

Modelling conventions:
* Python floats are modelled as exact rationals (`ℚ`); timestamps as `Int`.
* A Python dict `symbol -> qty` is an insertion-ordered association list
  (`List (String × ℚ)`) with `dictGet` / `dictSet` mirroring
  `d.get(k, 0.0)` and `d[k] = v`.
* `uuid.uuid4()` produces identifiers no claim observes; they are modelled
  by the constant string "uuid4".
* File-system persistence (json.dump / to_csv) is outside the model; the
  computational skeleton of `BacktestEngine.run`, including the point where
  `equity_df["nav"]` can raise `KeyError`, is modelled exactly.
-/

namespace EetcUtils

/-- One row of historical market data, as produced by the data client
(`price_df.itertuples`): fields `symbol, date, open, high, low, close, volume`. -/
structure Bar where
  symbol : String
  date : Int
  op : ℚ
  hi : ℚ
  lo : ℚ
  close : ℚ
  volume : ℚ
deriving Repr, DecidableEq

/-- `Trade` dataclass of broker_sim.py. -/
structure Trade where
  trade_id : String
  order_id : String
  symbol : String
  side : String
  qty : ℚ
  price : ℚ
  timestamp : Int
  commission : ℚ
  fill_cost : ℚ
deriving Repr, DecidableEq

/-- An element of `BrokerSim.equity_curve`: the dict appended by
`mark_to_market` (`timestamp`, `cash`, `nav`, a copy of `positions`). -/
structure EquityPoint where
  timestamp : Int
  cash : ℚ
  nav : ℚ
  positions : List (String × ℚ)
deriving Repr, DecidableEq

/-- Python `d.get(k, 0.0)` on an insertion-ordered dict. -/
def dictGet (d : List (String × ℚ)) (k : String) : ℚ :=
  match d with
  | [] => 0
  | (k', v) :: rest => if k' = k then v else dictGet rest k

/-- Python `d[k] = v`: overwrite in place if the key exists, else append. -/
def dictSet (d : List (String × ℚ)) (k : String) (v : ℚ) : List (String × ℚ) :=
  match d with
  | [] => [(k, v)]
  | (k', v') :: rest => if k' = k then (k, v) :: rest else (k', v') :: dictSet rest k v

/-- Mutable state of a `BrokerSim` instance: the configuration fixed in
`__init__` plus the ledger fields (`cash`, `positions`, `trades`,
`equity_curve`). -/
structure BrokerState where
  slippage : ℚ
  commission_per_share : ℚ
  initial_cash : ℚ
  cash : ℚ
  positions : List (String × ℚ)
  trades : List Trade
  equity_curve : List EquityPoint
deriving Repr, DecidableEq

/-- `BrokerSim.__init__(slippage, commission_per_share, initial_cash)`. -/
def brokerInit (slippage commission_per_share initial_cash : ℚ) : BrokerState :=
  { slippage := slippage
    commission_per_share := commission_per_share
    initial_cash := initial_cash
    cash := initial_cash
    positions := []
    trades := []
    equity_curve := [] }

/-- `BrokerSim()` with the default arguments
`slippage=0.0005, commission_per_share=0.0, initial_cash=10000`. -/
def brokerDefault : BrokerState :=
  brokerInit (1 / 2000) 0 10000

/-- Python `str.upper()`, character by character (all sides appearing in
the claims are ASCII). -/
def pyUpper (s : String) : String :=
  ⟨s.data.map Char.toUpper⟩

/-- `BrokerSim.place_market_order(symbol, side, qty, bar, timestamp)`:
returns the updated broker state together with the `Trade` the method
returns.  Line-by-line from broker_sim.py lines 34-56. -/
def place_market_order (st : BrokerState) (symbol side : String) (qty : ℚ)
    (bar : Bar) (timestamp : Int) : BrokerState × Trade :=
  let ref_price : ℚ := bar.close
  let sign : ℚ := if pyUpper side = "BUY" then 1 else -1
  let fill_price : ℚ := ref_price * (1 + sign * st.slippage)
  let commission : ℚ := |qty| * st.commission_per_share
  let fill_value : ℚ := fill_price * qty * sign * (-1)
  let trade : Trade :=
    { trade_id := "uuid4"
      order_id := "uuid4"
      symbol := symbol
      side := pyUpper side
      qty := |qty|
      price := fill_price
      timestamp := timestamp
      commission := commission
      fill_cost := fill_value }
  ({ st with
      cash := st.cash + (fill_value - commission)
      positions := dictSet st.positions symbol (dictGet st.positions symbol + sign * qty)
      trades := st.trades ++ [trade] },
   trade)

/-- `BrokerSim.mark_to_market(bar, timestamp)`: returns the updated state
and the NAV the method returns.  From broker_sim.py lines 58-73. -/
def mark_to_market (st : BrokerState) (bar : Bar) (timestamp : Int) :
    BrokerState × ℚ :=
  let nav : ℚ := st.positions.foldl (fun acc p => acc + p.2 * bar.close) st.cash
  ({ st with
      equity_curve := st.equity_curve ++
        [{ timestamp := timestamp, cash := st.cash, nav := nav,
           positions := st.positions }] },
   nav)

/-- A Python float that may be NaN: `none` is NaN, `some q` a finite value.
All finite values arising in the claims are rational. -/
abbrev PFloat := Option ℚ

/-- `series.pct_change().dropna()`: consecutive relative changes.  The leading
NaN produced by `pct_change` is dropped.  Faithful whenever every entry is
nonzero (a zero entry would give Python an infinity; the theorems below
assume nonzero NAVs). -/
def pctChangeDropna (navs : List ℚ) : List ℚ :=
  (navs.zip navs.tail).map (fun p => (p.2 - p.1) / p.1)

/-- `returns.mean()`: NaN on an empty series. -/
def pMean (l : List ℚ) : PFloat :=
  if l = [] then none else some (l.sum / l.length)

/-- The sample variance with `ddof=1` (the pandas default), meaningful for
`l.length ≥ 2`. -/
def sampleVar (l : List ℚ) : ℚ :=
  (l.map (fun x => (x - l.sum / l.length) ^ 2)).sum / ((l.length : ℚ) - 1)

/-- `returns.std()` (ddof=1): NaN on fewer than two points, otherwise the
square root of the sample variance.  Square roots are irrational in general,
so the model is parametric in a function `sqrt` standing for the real square
root; the theorems assume only `0 ≤ x → (0 < sqrt x ↔ 0 < x)`. -/
def pStd (sqrt : ℚ → ℚ) (l : List ℚ) : PFloat :=
  if l.length < 2 then none else some (sqrt (sampleVar l))

/-- Python `v > 0` on a float: False for NaN. -/
def pGtZero : PFloat → Bool
  | none => false
  | some v => decide (0 < v)

/-- Float division where either NaN operand gives NaN (the divisor is
guarded positive at the one call site). -/
def pDiv : PFloat → PFloat → PFloat
  | some a, some b => some (a / b)
  | _, _ => none

/-- `(1 + returns).cumprod()` with running product `acc`. -/
def cumprodAux (acc : ℚ) : List ℚ → List ℚ
  | [] => []
  | x :: xs => (acc * x) :: cumprodAux (acc * x) xs

/-- `series.cumprod()`. -/
def cumprod (l : List ℚ) : List ℚ :=
  cumprodAux 1 l

/-- `series.cummax()` with running maximum `acc`. -/
def cummaxAux (acc : ℚ) : List ℚ → List ℚ
  | [] => []
  | x :: xs => (max acc x) :: cummaxAux (max acc x) xs

/-- `series.cummax()`. -/
def cummax : List ℚ → List ℚ
  | [] => []
  | x :: xs => x :: cummaxAux x xs

/-- The dict returned by `compute_perf_stats` when the series is non-empty. -/
structure PerfStats where
  annual_return : PFloat
  annual_vol : PFloat
  sharpe : PFloat
  max_drawdown : ℚ
deriving Repr, DecidableEq

/-- `compute_perf_stats(nav_series)` from metrics.py lines 25-41.  The
argument is `none` for `nav_series is None`; the result is `none` for the
empty dict `{}` returned on an absent or empty series. -/
def compute_perf_stats (sqrt : ℚ → ℚ) (nav_series : Option (List ℚ)) :
    Option PerfStats :=
  match nav_series with
  | none => none
  | some navs =>
    if navs = [] then none
    else
      let returns := pctChangeDropna navs
      let ann_ret : PFloat := (pMean returns).map (fun m => (1 + m) ^ (252 : ℕ) - 1)
      let ann_vol : PFloat := (pStd sqrt returns).map (fun s => s * sqrt 252)
      let sharpe : PFloat := if pGtZero ann_vol then pDiv ann_ret ann_vol else none
      let cum := cumprod (returns.map (fun r => 1 + r))
      let peak := cummax cum
      let drawdown := List.zipWith (fun c p => (c - p) / p) cum peak
      let max_dd : ℚ := match drawdown with
        | [] => 0
        | d :: ds => ds.foldl min d
      some { annual_return := ann_ret, annual_vol := ann_vol,
             sharpe := sharpe, max_drawdown := max_dd }

/-- The strategy collaborator, reduced to what the replay loop observes: the
`(side, qty)` orders `on_data` places through `context.place_order` for a
given bar (passing the current bar and its date as the order's reference
data and timestamp, as the capability is intended to be used).
`on_start`/`on_stop` touch no ledger state. -/
structure StrategyModel where
  ordersOnData : Bar → List (String × ℚ)

/-- `BacktestEngine` instance state: the engine owns one `BrokerSim`,
created in `__init__` and reused by every `run` call. -/
structure EngineState where
  broker : BrokerState
deriving Repr, DecidableEq

/-- `BacktestEngine.__init__`: constructs `BrokerSim()` with its default
arguments. -/
def engineInit : EngineState :=
  { broker := brokerDefault }

/-- The value `run` returns: `{"trades": ..., "equity": ..., "perf": ...}`. -/
structure RunOutput where
  trades : List Trade
  equity : List EquityPoint
  perf : Option PerfStats

/-- The orders `on_data` places through `context.place_order` during one
bar: each call forwards to `BrokerSim.place_market_order` and appends the
returned `Trade` to `output["trades"]` (the second accumulator component). -/
def placeOrders (symbol : String) (bar : Bar)
    (acc : BrokerState × List Trade) (orders : List (String × ℚ)) :
    BrokerState × List Trade :=
  orders.foldl
    (fun (p : BrokerState × List Trade) o =>
      let r := place_market_order p.1 symbol o.1 o.2 bar bar.date
      (r.1, p.2 ++ [r.2]))
    acc

/-- One iteration of the replay loop in `BacktestEngine.run`:
`strategy.on_data` places its orders, then `mark_to_market` runs. -/
def runStep (strat : StrategyModel) (symbol : String)
    (acc : BrokerState × List Trade) (bar : Bar) : BrokerState × List Trade :=
  let placed := placeOrders symbol bar acc (strat.ordersOnData bar)
  ((mark_to_market placed.1 bar bar.date).1, placed.2)

/-- `BacktestEngine.run(strategy, symbol, start, end)` from engine.py lines
16-68, applied to the already-fetched bar sequence.  Returns the engine
state after the call together with either the returned output dict or the
uncaught exception.  `equity_df = pd.DataFrame(self.broker.equity_curve)`
has no "nav" column when the curve is empty, so `equity_df["nav"]` raises
`KeyError` there; file writes are outside the model. -/
def run (sqrt : ℚ → ℚ) (e : EngineState) (strat : StrategyModel)
    (symbol : String) (bars : List Bar) :
    EngineState × Except String RunOutput :=
  let replayed := bars.foldl (runStep strat symbol) (e.broker, [])
  if replayed.1.equity_curve = [] then
    ({ broker := replayed.1 }, Except.error "KeyError: nav")
  else
    let perf := compute_perf_stats sqrt
      (some (replayed.1.equity_curve.map (fun p => p.nav)))
    ({ broker := replayed.1 },
     Except.ok { trades := replayed.2, equity := replayed.1.equity_curve,
                 perf := perf })

/-- Bar fixture for concrete runs: close 100, parameterised by date. -/
def barAt (d : Int) : Bar :=
  { symbol := "X", date := d, op := 100, hi := 100, lo := 100, close := 100,
    volume := 0 }

/-- A strategy that places no orders. -/
def stratNone : StrategyModel :=
  { ordersOnData := fun _ => [] }

/-- A strategy that buys one share on every bar. -/
def stratBuyOne : StrategyModel :=
  { ordersOnData := fun _ => [("BUY", 1)] }

/-- The signed quantity of an order, as the spec defines it:
`+qty` for BUY, `−qty` for SELL. -/
def signedQty (side : String) (qty : ℚ) : ℚ :=
  if side = "BUY" then qty else -qty

/-- A bare sequence of orders `(symbol, side, qty)` executed at one bar, as
in the spec's algebraic property (§8): each order goes through
`place_market_order`. -/
def execOrders (st : BrokerState) (orders : List (String × String × ℚ))
    (bar : Bar) (ts : Int) : BrokerState :=
  orders.foldl (fun s o => (place_market_order s o.1 o.2.1 o.2.2 bar ts).1) st

/-! ## Helper lemmas -/

theorem dictGet_dictSet_self (d : List (String × ℚ)) (k : String) (v : ℚ) :
    dictGet (dictSet d k v) k = v := by
  induction d with
  | nil => simp [dictSet, dictGet]
  | cons p tl ih =>
    obtain ⟨k', v'⟩ := p
    by_cases h : k' = k
    · simp [dictSet, h, dictGet]
    · simp [dictSet, h, dictGet, ih]

theorem dictGet_dictSet_ne (d : List (String × ℚ)) (k s : String) (v : ℚ)
    (h : k ≠ s) : dictGet (dictSet d k v) s = dictGet d s := by
  induction d with
  | nil => simp [dictSet, dictGet, h]
  | cons p tl ih =>
    obtain ⟨k', v'⟩ := p
    by_cases h' : k' = k
    · subst h'; simp [dictSet, dictGet, h]
    · simp [dictSet, h', dictGet, ih]

/-- `positions[symbol] = positions.get(symbol, 0) + delta` shifts the sum
of all position values by `delta`. -/
theorem sum_dictSet_add (d : List (String × ℚ)) (k : String) (x : ℚ) :
    ((dictSet d k (dictGet d k + x)).map Prod.snd).sum =
      (d.map Prod.snd).sum + x := by
  induction d with
  | nil => simp [dictSet, dictGet]
  | cons p tl ih =>
    obtain ⟨k', v'⟩ := p
    by_cases h : k' = k
    · simp [dictSet, dictGet, h]; ring
    · simp [dictSet, dictGet, h, ih]; ring

/-- The `nav` accumulation loop of `mark_to_market` as a sum. -/
theorem foldl_add_mul (c init : ℚ) (l : List (String × ℚ)) :
    l.foldl (fun acc p => acc + p.2 * c) init =
      init + (l.map (fun p => p.2 * c)).sum := by
  induction l generalizing init with
  | nil => simp
  | cons p tl ih => simp [ih]; ring

/-! ## Claims -/

/-- C1: for `place_market_order(symbol, side, qty, bar, timestamp)` with
side BUY or SELL and non-negative qty, the fill price is `close * (1 + slippage)`
for BUY and `close * (1 - slippage)` for SELL, the commission is
`qty * commission_per_share`, cash changes by `-fill_price * qty` (BUY) or
`+fill_price * qty` (SELL) minus the commission, and the position for
`symbol` is incremented (BUY) or decremented (SELL) by `qty`. -/
theorem C1_place_market_order_correct
    (st : BrokerState) (symbol side : String) (qty : ℚ) (bar : Bar) (ts : Int)
    (hside : side = "BUY" ∨ side = "SELL") (hqty : 0 ≤ qty) :
    (place_market_order st symbol side qty bar ts).2.price =
      (if side = "BUY" then bar.close * (1 + st.slippage)
       else bar.close * (1 - st.slippage)) ∧
    (place_market_order st symbol side qty bar ts).2.commission =
      qty * st.commission_per_share ∧
    (place_market_order st symbol side qty bar ts).1.cash =
      st.cash +
        (if side = "BUY" then -(bar.close * (1 + st.slippage) * qty)
         else bar.close * (1 - st.slippage) * qty) -
        qty * st.commission_per_share ∧
    dictGet (place_market_order st symbol side qty bar ts).1.positions symbol =
      dictGet st.positions symbol + (if side = "BUY" then qty else -qty) := by
  rcases hside with h | h <;> subst h <;>
    refine ⟨?_, ?_, ?_, ?_⟩ <;>
      simp [place_market_order, show pyUpper "BUY" = "BUY" from by decide,
        show pyUpper "SELL" = "SELL" from by decide, abs_of_nonneg hqty,
        dictGet_dictSet_self] <;>
      first
        | ring1
        | tauto
        | exact Or.inl (by ring)

/-- Witness for C1 at a concrete input: slippage 1/100, commission 1/2 per
share, BUY 3 shares at close 100. -/
theorem C1_place_market_order_correct_witness :
    (place_market_order (brokerInit (1/100) (1/2) 1000) "A" "BUY" 3 (barAt 7) 7).2.price = 101 ∧
    (place_market_order (brokerInit (1/100) (1/2) 1000) "A" "BUY" 3 (barAt 7) 7).2.commission = 3/2 ∧
    (place_market_order (brokerInit (1/100) (1/2) 1000) "A" "BUY" 3 (barAt 7) 7).1.cash = 1391/2 ∧
    dictGet (place_market_order (brokerInit (1/100) (1/2) 1000) "A" "BUY" 3 (barAt 7) 7).1.positions "A" = 3 := by
  have h := C1_place_market_order_correct (brokerInit (1/100) (1/2) 1000) "A"
    "BUY" 3 (barAt 7) 7 (Or.inl rfl) (by norm_num)
  refine ⟨?_, ?_, ?_, ?_⟩
  · rw [h.1]; norm_num [brokerInit, barAt]
  · rw [h.2.1]; norm_num [brokerInit]
  · rw [h.2.2.1]; norm_num [brokerInit, barAt]
  · rw [h.2.2.2]; norm_num [brokerInit, dictGet]

/-- C2: `mark_to_market(bar, timestamp)` returns
`cash + Σ position[symbol] * bar.close` over the held symbols, appends
exactly one EquityPoint `(timestamp, cash, nav, positions)` to the equity
curve, and changes nothing else in the ledger. -/
theorem C2_mark_to_market_correct (st : BrokerState) (bar : Bar) (ts : Int) :
    (mark_to_market st bar ts).2 =
      st.cash + (st.positions.map (fun p => p.2 * bar.close)).sum ∧
    (mark_to_market st bar ts).1.equity_curve =
      st.equity_curve ++
        [{ timestamp := ts, cash := st.cash, nav := (mark_to_market st bar ts).2,
           positions := st.positions }] ∧
    (mark_to_market st bar ts).1.cash = st.cash ∧
    (mark_to_market st bar ts).1.positions = st.positions ∧
    (mark_to_market st bar ts).1.trades = st.trades ∧
    (mark_to_market st bar ts).1.slippage = st.slippage ∧
    (mark_to_market st bar ts).1.commission_per_share = st.commission_per_share ∧
    (mark_to_market st bar ts).1.initial_cash = st.initial_cash := by
  refine ⟨?_, ?_, rfl, rfl, rfl, rfl, rfl, rfl⟩
  · simp [mark_to_market, foldl_add_mul]
  · simp [mark_to_market, foldl_add_mul]

/-- C4 counterexample: a zero-quantity BUY on a fresh default broker does
mutate the trade log (one zero-quantity Trade is appended), contradicting
the claim that the trade log is left unchanged. -/
theorem C4_counterexample :
    (place_market_order brokerDefault "A" "BUY" 0 (barAt 0) 0).1.trades ≠
      brokerDefault.trades := by
  decide

/-- C4 amended: a zero-quantity order leaves cash unchanged and every
position value unchanged (the positions dict may gain an entry with value
zero), but it does append one Trade with `qty = 0` to the trade log. -/
theorem C4_zero_qty_amended (st : BrokerState) (symbol side : String)
    (bar : Bar) (ts : Int) :
    (place_market_order st symbol side 0 bar ts).1.cash = st.cash ∧
    (∀ s, dictGet (place_market_order st symbol side 0 bar ts).1.positions s =
      dictGet st.positions s) ∧
    (place_market_order st symbol side 0 bar ts).1.trades =
      st.trades ++ [(place_market_order st symbol side 0 bar ts).2] ∧
    (place_market_order st symbol side 0 bar ts).2.qty = 0 := by
  refine ⟨?_, ?_, ?_, ?_⟩
  · simp [place_market_order]
  · intro s
    by_cases h : symbol = s
    · subst h; simp [place_market_order, dictGet_dictSet_self]
    · simp [place_market_order, dictGet_dictSet_ne _ _ _ _ h]
  · simp [place_market_order]
  · simp [place_market_order]

/-- C5 counterexample: an order with side "HOLD" (outside {BUY, SELL}) on a
fresh default broker is not rejected: it mutates cash and appends a trade. -/
theorem C5_counterexample :
    (place_market_order brokerDefault "A" "HOLD" 1 (barAt 0) 0).1.cash ≠
      brokerDefault.cash ∧
    (place_market_order brokerDefault "A" "HOLD" 1 (barAt 0) 0).1.trades.length =
      brokerDefault.trades.length + 1 := by
  constructor
  · have hc : (place_market_order brokerDefault "A" "HOLD" 1 (barAt 0) 0).1.cash =
        201999 / 20 := by
      norm_num [place_market_order, brokerDefault, brokerInit, barAt,
        show pyUpper "HOLD" = "HOLD" from by decide,
        show ("HOLD" : String) ≠ "BUY" from by decide]
    rw [hc]
    norm_num [brokerDefault, brokerInit]
  · simp [place_market_order, brokerDefault, brokerInit]

/-- C5 amended: a side whose uppercase form is not "BUY" is silently
treated as SELL: the order fills at `close * (1 - slippage)`, credits cash
by `fill_price * qty` minus commission, decrements the position by `qty`,
and appends a Trade; no error is reported. -/
theorem C5_invalid_side_amended (st : BrokerState) (symbol side : String)
    (qty : ℚ) (bar : Bar) (ts : Int) (h : pyUpper side ≠ "BUY") :
    (place_market_order st symbol side qty bar ts).2.price =
      bar.close * (1 - st.slippage) ∧
    (place_market_order st symbol side qty bar ts).1.cash =
      st.cash + (bar.close * (1 - st.slippage) * qty -
        |qty| * st.commission_per_share) ∧
    dictGet (place_market_order st symbol side qty bar ts).1.positions symbol =
      dictGet st.positions symbol - qty ∧
    (place_market_order st symbol side qty bar ts).1.trades =
      st.trades ++ [(place_market_order st symbol side qty bar ts).2] := by
  refine ⟨?_, ?_, ?_, ?_⟩ <;>
    simp [place_market_order, h, dictGet_dictSet_self,
      -mul_eq_mul_left_iff, -mul_eq_mul_right_iff] <;>
    ring1

/-- Witness for C5's amended statement: side "HOLD", two shares, slippage
1/100, close 100. -/
theorem C5_invalid_side_amended_witness :
    (place_market_order (brokerInit (1/100) 0 1000) "A" "HOLD" 2 (barAt 3) 3).2.price = 99 ∧
    (place_market_order (brokerInit (1/100) 0 1000) "A" "HOLD" 2 (barAt 3) 3).1.cash = 1198 ∧
    dictGet (place_market_order (brokerInit (1/100) 0 1000) "A" "HOLD" 2 (barAt 3) 3).1.positions "A" = -2 := by
  have h := C5_invalid_side_amended (brokerInit (1/100) 0 1000) "A" "HOLD" 2
    (barAt 3) 3 (by decide)
  refine ⟨?_, ?_, ?_⟩
  · rw [h.1]; norm_num [brokerInit, barAt]
  · rw [h.2.1]; norm_num [brokerInit, barAt]
  · rw [h.2.2.1]; norm_num [brokerInit, dictGet]

/-- C10: with a strictly negative quantity `q` and side BUY, the returned
Trade records `qty = |q|` and side "BUY", while the ledger moves the other
way: the position for the symbol decreases by `|q|` and cash increases by
`fill_price * |q|` minus the commission. -/
theorem C10_negative_qty_buy (st : BrokerState) (symbol : String) (qty : ℚ)
    (bar : Bar) (ts : Int) (hq : qty < 0) :
    (place_market_order st symbol "BUY" qty bar ts).2.side = "BUY" ∧
    (place_market_order st symbol "BUY" qty bar ts).2.qty = -qty ∧
    dictGet (place_market_order st symbol "BUY" qty bar ts).1.positions symbol =
      dictGet st.positions symbol - (-qty) ∧
    (place_market_order st symbol "BUY" qty bar ts).1.cash =
      st.cash + ((place_market_order st symbol "BUY" qty bar ts).2.price * (-qty) -
        (place_market_order st symbol "BUY" qty bar ts).2.commission) := by
  refine ⟨?_, ?_, ?_, ?_⟩ <;>
    simp [place_market_order, show pyUpper "BUY" = "BUY" from by decide,
      abs_of_neg hq, dictGet_dictSet_self]

/-- Witness for C10: BUY with quantity −2 at close 100, zero slippage and
commission: cash rises from 1000 to 1200 and the position falls to −2,
while the trade records qty 2 and side BUY. -/
theorem C10_negative_qty_buy_witness :
    (place_market_order (brokerInit 0 0 1000) "A" "BUY" (-2) (barAt 0) 0).2.side = "BUY" ∧
    (place_market_order (brokerInit 0 0 1000) "A" "BUY" (-2) (barAt 0) 0).2.qty = 2 ∧
    dictGet (place_market_order (brokerInit 0 0 1000) "A" "BUY" (-2) (barAt 0) 0).1.positions "A" = -2 ∧
    (place_market_order (brokerInit 0 0 1000) "A" "BUY" (-2) (barAt 0) 0).1.cash = 1200 := by
  have h := C10_negative_qty_buy (brokerInit 0 0 1000) "A" (-2) (barAt 0) 0
    (by norm_num)
  refine ⟨h.1, ?_, ?_, ?_⟩
  · rw [h.2.1]; norm_num
  · rw [h.2.2.1]; norm_num [brokerInit, dictGet]
  · rw [h.2.2.2]
    norm_num [brokerInit, place_market_order, barAt]

/-- With zero slippage and zero commission, each executed order moves cash
by `−signed_qty × close`, shifts the total position by `signed_qty`, and
preserves the friction configuration. -/
theorem execOrders_zero_friction (orders : List (String × String × ℚ))
    (st : BrokerState) (bar : Bar) (ts : Int)
    (hs0 : st.slippage = 0) (hc0 : st.commission_per_share = 0)
    (hsides : ∀ o ∈ orders, o.2.1 = "BUY" ∨ o.2.1 = "SELL") :
    (execOrders st orders bar ts).cash =
      st.cash - ((orders.map (fun o => signedQty o.2.1 o.2.2)).sum) * bar.close ∧
    ((execOrders st orders bar ts).positions.map Prod.snd).sum =
      (st.positions.map Prod.snd).sum +
        (orders.map (fun o => signedQty o.2.1 o.2.2)).sum := by
  induction orders generalizing st with
  | nil => simp [execOrders]
  | cons o os ih =>
    obtain ⟨sym, side, qty⟩ := o
    have hside := hsides _ (List.mem_cons_self _ _)
    have hrest : ∀ o ∈ os, o.2.1 = "BUY" ∨ o.2.1 = "SELL" :=
      fun o ho => hsides o (List.mem_cons_of_mem _ ho)
    have hstep : execOrders st ((sym, side, qty) :: os) bar ts =
        execOrders (place_market_order st sym side qty bar ts).1 os bar ts := rfl
    have h1 : (place_market_order st sym side qty bar ts).1.cash =
        st.cash - signedQty side qty * bar.close := by
      rcases hside with h | h <;> subst h <;>
        simp [place_market_order, hs0, hc0, signedQty,
          show pyUpper "BUY" = "BUY" from by decide,
          show pyUpper "SELL" = "SELL" from by decide] <;> ring
    have h2 : ((place_market_order st sym side qty bar ts).1.positions.map
        Prod.snd).sum = (st.positions.map Prod.snd).sum + signedQty side qty := by
      rcases hside with h | h <;> subst h <;>
        simp [place_market_order, signedQty,
          show pyUpper "BUY" = "BUY" from by decide,
          show pyUpper "SELL" = "SELL" from by decide, sum_dictSet_add,
          show ∀ d k x, dictGet d k + -x = dictGet d k + (-x) from fun _ _ _ => rfl]
    have h3 := ih (place_market_order st sym side qty bar ts).1 hs0 hc0 hrest
    refine ⟨?_, ?_⟩
    · rw [hstep, h3.1, h1]; simp; ring
    · rw [hstep, h3.2, h2]; simp; ring

/-- C8: for any sequence of BUY/SELL orders executed against one bar with
zero slippage and zero commission, the final cash is
`initial_cash − Σ (signed_qty × price)`, and when the net position is zero
the NAV marked at that same price equals `initial_cash`. -/
theorem C8_zero_friction_round_trip (init : ℚ)
    (orders : List (String × String × ℚ)) (bar : Bar) (ts : Int)
    (hsides : ∀ o ∈ orders, o.2.1 = "BUY" ∨ o.2.1 = "SELL") :
    (execOrders (brokerInit 0 0 init) orders bar ts).cash =
      init - (orders.map (fun o => signedQty o.2.1 o.2.2 * bar.close)).sum ∧
    (((execOrders (brokerInit 0 0 init) orders bar ts).positions.map
        Prod.snd).sum = 0 →
      (mark_to_market (execOrders (brokerInit 0 0 init) orders bar ts) bar ts).2 =
        init) := by
  have h := execOrders_zero_friction orders (brokerInit 0 0 init) bar ts rfl rfl
    hsides
  have hmul : (orders.map (fun o => signedQty o.2.1 o.2.2 * bar.close)).sum =
      (orders.map (fun o => signedQty o.2.1 o.2.2)).sum * bar.close := by
    simpa using List.sum_map_mul_right orders (fun o => signedQty o.2.1 o.2.2)
      bar.close
  constructor
  · rw [h.1, hmul]; simp [brokerInit]
  · intro hnet
    have hsum0 : (orders.map (fun o => signedQty o.2.1 o.2.2)).sum = 0 := by
      have := h.2
      rw [hnet] at this
      simp [brokerInit] at this
      linarith [this]
    have hnav : (mark_to_market (execOrders (brokerInit 0 0 init) orders bar ts)
        bar ts).2 =
        (execOrders (brokerInit 0 0 init) orders bar ts).cash +
          (((execOrders (brokerInit 0 0 init) orders bar ts).positions.map
            Prod.snd).sum) * bar.close := by
      simp [mark_to_market, foldl_add_mul,
        List.sum_map_mul_right _ Prod.snd bar.close]
    rw [hnav, hnet, h.1, hsum0]
    simp [brokerInit]

/-- Witness for C8: BUY 2 then SELL 2 at close 100 from initial cash 500:
final cash 500 and NAV 500. -/
theorem C8_zero_friction_round_trip_witness :
    (execOrders (brokerInit 0 0 500) [("A", "BUY", 2), ("A", "SELL", 2)]
      (barAt 0) 0).cash = 500 ∧
    (mark_to_market (execOrders (brokerInit 0 0 500)
      [("A", "BUY", 2), ("A", "SELL", 2)] (barAt 0) 0) (barAt 0) 0).2 = 500 := by
  have h := C8_zero_friction_round_trip 500 [("A", "BUY", 2), ("A", "SELL", 2)]
    (barAt 0) 0 (by decide)
  have hpos : (((execOrders (brokerInit 0 0 500)
      [("A", "BUY", 2), ("A", "SELL", 2)] (barAt 0) 0).positions.map
      Prod.snd).sum = (0 : ℚ)) := by
    norm_num [execOrders, place_market_order, brokerInit, barAt, dictGet,
      dictSet, show pyUpper "BUY" = "BUY" from by decide,
      show pyUpper "SELL" = "SELL" from by decide,
      show ("SELL" : String) ≠ "BUY" from by decide]
  constructor
  · rw [h.1]
    norm_num [signedQty, barAt, show ("SELL" : String) ≠ "BUY" from by decide]
  · exact h.2 hpos

/-- Placing orders never touches the equity curve. -/
theorem placeOrders_equity (symbol : String) (bar : Bar)
    (orders : List (String × ℚ)) (acc : BrokerState × List Trade) :
    (placeOrders symbol bar acc orders).1.equity_curve = acc.1.equity_curve := by
  induction orders generalizing acc with
  | nil => rfl
  | cons o os ih => exact ih _

/-- One replay iteration appends exactly one equity point, stamped with the
bar's own date. -/
theorem runStep_equity_timestamps (strat : StrategyModel) (symbol : String)
    (acc : BrokerState × List Trade) (bar : Bar) :
    ((runStep strat symbol acc bar).1.equity_curve.map (fun p => p.timestamp)) =
      acc.1.equity_curve.map (fun p => p.timestamp) ++ [bar.date] := by
  simp [runStep, mark_to_market, placeOrders_equity]

/-- Over the whole replay loop the equity-curve timestamps are the prior
curve's timestamps followed by the bar dates in fetched order. -/
theorem foldl_runStep_timestamps (strat : StrategyModel) (symbol : String)
    (bars : List Bar) (acc : BrokerState × List Trade) :
    (((bars.foldl (runStep strat symbol) acc).1.equity_curve).map
        (fun p => p.timestamp)) =
      acc.1.equity_curve.map (fun p => p.timestamp) ++
        bars.map (fun b => b.date) := by
  induction bars generalizing acc with
  | nil => simp
  | cons b bs ih =>
    simp only [List.foldl_cons, ih, runStep_equity_timestamps, List.map_cons]
    simp

/-- The engine state `run` leaves behind is the broker threaded through the
replay loop, regardless of which branch produced the returned value. -/
theorem run_broker (sq : ℚ → ℚ) (e : EngineState) (strat : StrategyModel)
    (symbol : String) (bars : List Bar) :
    (run sq e strat symbol bars).1 =
      { broker := (bars.foldl (runStep strat symbol) (e.broker, [])).1 } := by
  simp [run, apply_ite Prod.fst]

/-- C3: on an empty fetched bar sequence, `run` does not return empty
outputs: the equity curve is empty, so `pd.DataFrame([])` has no "nav"
column and `equity_df["nav"]` raises `KeyError` — the run crashes instead
of completing. -/
theorem C3_empty_bars_keyerror :
    (run (fun x => x) engineInit stratNone "X" []).2 =
      Except.error "KeyError: nav" := by
  rfl

/-- C6 counterexample: running the same engine twice on one bar with a
buy-one-share strategy leaves two trades and two equity points in the
second run's ledger, and cash that never returned to the configured
initial cash — the second `run` call starts from the first run's ledger,
not from fresh state (a fresh ledger plus a one-bar replay would end with
exactly one equity point). -/
theorem C6_counterexample :
    (run (fun x => x) engineInit stratBuyOne "A" [barAt 0]).1.broker.cash ≠
      engineInit.broker.initial_cash ∧
    (run (fun x => x) (run (fun x => x) engineInit stratBuyOne "A"
        [barAt 0]).1 stratBuyOne "A" [barAt 0]).1.broker.trades.length = 2 ∧
    (run (fun x => x) (run (fun x => x) engineInit stratBuyOne "A"
        [barAt 0]).1 stratBuyOne "A" [barAt 0]).1.broker.equity_curve.length =
      2 := by
  simp only [run_broker]
  refine ⟨?_, ?_, ?_⟩ <;>
    norm_num [runStep, placeOrders, place_market_order, mark_to_market,
      stratBuyOne, engineInit, brokerDefault, brokerInit, barAt, dictGet,
      dictSet, show pyUpper "BUY" = "BUY" from by decide]

/-- C6 amended: the ledger is fresh at engine construction (cash equals the
initial-cash configuration, empty positions, trade log and equity curve),
but `run` reuses the engine's existing broker: each call appends one equity
point per bar onto whatever curve the broker already holds, so state
accumulates across `run` calls on the same engine. -/
theorem C6_ledger_reused_across_runs (sq : ℚ → ℚ) (e : EngineState)
    (strat : StrategyModel) (symbol : String) (bars : List Bar) :
    engineInit.broker.cash = engineInit.broker.initial_cash ∧
    engineInit.broker.positions = [] ∧
    engineInit.broker.trades = [] ∧
    engineInit.broker.equity_curve = [] ∧
    (run sq e strat symbol bars).1.broker.equity_curve.length =
      e.broker.equity_curve.length + bars.length := by
  refine ⟨rfl, rfl, rfl, rfl, ?_⟩
  rw [run_broker]
  have h := congrArg List.length
    (foldl_runStep_timestamps strat symbol bars (e.broker, []))
  simpa using h

/-- C7 counterexample: fetched bars with dates [2, 1] are replayed as-is —
the equity curve's timestamps come out [2, 1], which is not non-decreasing;
the Orchestrator never sorts. -/
theorem C7_counterexample :
    ((run (fun x => x) engineInit stratNone "X" [barAt 2, barAt 1]).1.broker.equity_curve.map
      (fun p => p.timestamp)) = [2, 1] ∧
    ¬ List.Sorted (· ≤ ·)
      ((run (fun x => x) engineInit stratNone "X" [barAt 2, barAt 1]).1.broker.equity_curve.map
        (fun p => p.timestamp)) := by
  have h : ((run (fun x => x) engineInit stratNone "X"
      [barAt 2, barAt 1]).1.broker.equity_curve.map (fun p => p.timestamp)) =
      [2, 1] := by
    rw [run_broker]
    simpa [engineInit, brokerDefault, brokerInit, barAt] using
      foldl_runStep_timestamps stratNone "X" [barAt 2, barAt 1]
        (engineInit.broker, [])
  refine ⟨h, ?_⟩
  rw [h]
  decide

/-- C7 amended: `run` replays bars in fetched order without sorting: the
equity curve records one point per bar, stamped with the bar dates in
exactly the fetched order; the curve's timestamps are non-decreasing only
when the fetched sequence already was. -/
theorem C7_replay_in_fetched_order (sq : ℚ → ℚ) (strat : StrategyModel)
    (symbol : String) (bars : List Bar) :
    ((run sq engineInit strat symbol bars).1.broker.equity_curve.map
      (fun p => p.timestamp)) = bars.map (fun b => b.date) ∧
    (List.Sorted (· ≤ ·) (bars.map (fun b => b.date)) →
      List.Sorted (· ≤ ·)
        ((run sq engineInit strat symbol bars).1.broker.equity_curve.map
          (fun p => p.timestamp))) := by
  have h : ((run sq engineInit strat symbol bars).1.broker.equity_curve.map
      (fun p => p.timestamp)) = bars.map (fun b => b.date) := by
    rw [run_broker]
    simpa [engineInit, brokerDefault, brokerInit] using
      foldl_runStep_timestamps strat symbol bars (engineInit.broker, [])
  exact ⟨h, fun hs => h ▸ hs⟩

/-- Witness for C7's amended statement: two bars dated 1 then 2 yield a
sorted equity curve. -/
theorem C7_replay_in_fetched_order_witness :
    List.Sorted (· ≤ ·)
      ((run (fun x => x) engineInit stratNone "X" [barAt 1, barAt 2]).1.broker.equity_curve.map
        (fun p => p.timestamp)) := by
  exact (C7_replay_in_fetched_order (fun x => x) stratNone "X"
    [barAt 1, barAt 2]).2 (by norm_num [barAt, List.sorted_cons])

/-- C9: `compute_perf_stats` returns the empty dict on an absent or empty
NAV series without raising; on a non-empty series (of nonzero NAVs, where
the rational embedding is exact), whenever the annualized volatility is not
strictly positive — fewer than two returns (std is NaN) or zero sample
variance — the Sharpe ratio is the explicit NaN value, and the max
drawdown is 0 when the cumulative-return curve has no points.  The theorem
is parametric in the square root used by `std`, assumed only to be
positive exactly on positive inputs. -/
theorem C9_perf_stats_degenerate (sqrt : ℚ → ℚ)
    (hsqrt : ∀ x : ℚ, 0 ≤ x → (0 < sqrt x ↔ 0 < x))
    (navs : List ℚ) (hnz : ∀ x ∈ navs, x ≠ 0) (stats : PerfStats)
    (hstats : compute_perf_stats sqrt (some navs) = some stats) :
    compute_perf_stats sqrt none = none ∧
    compute_perf_stats sqrt (some ([] : List ℚ)) = none ∧
    (((pctChangeDropna navs).length < 2 ∨
        sampleVar (pctChangeDropna navs) = 0) → stats.sharpe = none) ∧
    (pctChangeDropna navs = [] → stats.max_drawdown = 0) := by
  have hne : navs ≠ [] := by
    intro h
    rw [h] at hstats
    simp [compute_perf_stats] at hstats
  refine ⟨rfl, by simp [compute_perf_stats], ?_, ?_⟩
  · intro hcond
    simp only [compute_perf_stats, if_neg hne, Option.some.injEq] at hstats
    subst hstats
    rcases hcond with hlen | hvar
    · simp [pStd, hlen, pGtZero]
    · by_cases hlen2 : (pctChangeDropna navs).length < 2
      · simp [pStd, hlen2, pGtZero]
      · have h0 : sqrt (sampleVar (pctChangeDropna navs)) ≤ 0 := by
          rw [hvar]
          by_contra hpos
          push_neg at hpos
          exact absurd ((hsqrt 0 le_rfl).mp hpos) (lt_irrefl 0)
        have h252 : 0 < sqrt 252 := (hsqrt 252 (by norm_num)).mpr (by norm_num)
        have hprod : sqrt (sampleVar (pctChangeDropna navs)) * sqrt 252 ≤ 0 :=
          by nlinarith
        have hfalse : pGtZero (some (sqrt (sampleVar (pctChangeDropna navs)) *
            sqrt 252)) = false := by
          simp [pGtZero]
          exact hprod
        simp [pStd, hlen2, hfalse]
  · intro hret
    simp only [compute_perf_stats, if_neg hne, Option.some.injEq] at hstats
    subst hstats
    simp [hret, cumprod, cumprodAux, pGtZero, pDiv, pStd, pMean]

/-- Witness for C9 at the one-point series [5]: returns are empty, so the
Sharpe ratio is NaN and the max drawdown is 0. -/
theorem C9_perf_stats_degenerate_witness :
    ({ annual_return := none, annual_vol := none, sharpe := none,
       max_drawdown := 0 } : PerfStats).sharpe = none ∧
    ({ annual_return := none, annual_vol := none, sharpe := none,
       max_drawdown := 0 } : PerfStats).max_drawdown = 0 := by
  have h := C9_perf_stats_degenerate (fun x => x) (fun x _ => Iff.rfl)
    [5] (by norm_num)
    { annual_return := none, annual_vol := none, sharpe := none,
      max_drawdown := 0 }
    (by norm_num [compute_perf_stats, pctChangeDropna, pMean, pStd, cumprod,
      cumprodAux, pGtZero, pDiv])
  exact ⟨h.2.2.1 (Or.inl (by norm_num [pctChangeDropna])),
    h.2.2.2 (by norm_num [pctChangeDropna])⟩

end EetcUtils
